import Mathlib

/-!
Verification of the Verba GitHub/GitLab reader adapters
(`goldenverba/components/reader/githubreader.py` and
`goldenverba/components/reader/gitlabreader.py`).

The two adapters are embedded shallowly: the pure string manipulation
(path parsing, extension filtering, base64, percent-encoding) is translated
directly; the external collaborators (the HTTP client, `json.loads`,
`Document.from_json`, the UnstructuredPDF service and the local PDFReader)
are modelled as oracle functions supplied through an environment record,
returning `Except Unit` to model Python exceptions.  Python byte strings are
modelled as `List Nat` (one `Nat` per byte, callers keep bytes below 256);
Python text strings are Lean `String`s.
-/

namespace Verba

/-- Python `str.endswith(suf)`: `suf` is a suffix of the character sequence. -/
def pyEndswith (s suf : String) : Bool := decide (suf.data <:+ s.data)

/-- Python `str.startswith(pre)`: `pre` is a prefix of the character sequence. -/
def pyStartswith (s pre : String) : Bool := decide (pre.data <+: s.data)

/-- Helper for `pySplit`: walk the characters, cutting at each separator. -/
def pySplitAux (sep : Char) : List Char → List Char → List String
  | [], acc => [String.mk acc.reverse]
  | c :: cs, acc =>
    if c = sep then String.mk acc.reverse :: pySplitAux sep cs []
    else pySplitAux sep cs (c :: acc)

/-- Python `str.split(sep)` for a one-character separator: always returns a
non-empty list, keeps empty segments. -/
def pySplit (sep : Char) (s : String) : List String := pySplitAux sep s.data []

/-- Python `sep.join(strs)`. -/
def pyJoin (sep : String) : List String → String
  | [] => ""
  | [x] => x
  | x :: y :: rest => x ++ sep ++ pyJoin sep (y :: rest)

/-- Python `"…".split("/")[-1]`: the last slash-separated segment.
`pySplit` never returns `[]`, so the default is never used. -/
def lastSegment (s : String) : String := (pySplit '/' s).getLastD ""

/-! ## Base64 (Python `base64.b64encode` / `base64.b64decode`) -/

/-- The standard base64 alphabet as byte values: `A`-`Z`, `a`-`z`, `0`-`9`, `+`, `/`. -/
def b64alphabet : List Nat :=
  ((List.range 26).map (fun n => 65 + n)) ++ ((List.range 26).map (fun n => 97 + n)) ++
    ((List.range 10).map (fun n => 48 + n)) ++ [43, 47]

/-- Encode a 6-bit group as a base64 alphabet byte. -/
def encC (n : Nat) : Nat := b64alphabet.getD n 0

/-- Decode a base64 alphabet byte back to its 6-bit group. -/
def decC (c : Nat) : Nat := b64alphabet.findIdx (fun x => x == c)

/-- Standard base64 encoding of a byte list, with `=` (byte 61) padding,
as performed by Python `base64.b64encode`. -/
def pyB64encode : List Nat → List Nat
  | a :: b :: c :: rest =>
      encC (a / 4) :: encC (a % 4 * 16 + b / 16) :: encC (b % 16 * 4 + c / 64) ::
        encC (c % 64) :: pyB64encode rest
  | [a, b] => [encC (a / 4), encC (a % 4 * 16 + b / 16), encC (b % 16 * 4), 61]
  | [a] => [encC (a / 4), encC (a % 4 * 16), 61, 61]
  | [] => []

/-- Standard base64 decoding of a padded base64 byte list, as performed by
Python `base64.b64decode` on well-formed input. -/
def pyB64decode : List Nat → List Nat
  | c0 :: c1 :: c2 :: c3 :: rest =>
      if c2 = 61 then [decC c0 * 4 + decC c1 / 16]
      else if c3 = 61 then [decC c0 * 4 + decC c1 / 16, decC c1 % 16 * 16 + decC c2 / 4]
      else (decC c0 * 4 + decC c1 / 16) :: (decC c1 % 16 * 16 + decC c2 / 4) ::
        (decC c2 % 4 * 64 + decC c3) :: pyB64decode rest
  | _ => []

theorem decC_encC (n : Nat) (h : n < 64) : decC (encC n) = n := by
  have hall : ∀ m : Fin 64, decC (encC m.val) = m.val := by decide
  exact hall ⟨n, h⟩

theorem encC_ne_pad (n : Nat) (h : n < 64) : encC n ≠ 61 := by
  have hall : ∀ m : Fin 64, encC m.val ≠ 61 := by decide
  exact hall ⟨n, h⟩

theorem pyB64_roundtrip : ∀ l : List Nat, (∀ b ∈ l, b < 256) →
    pyB64decode (pyB64encode l) = l := by
  intro l
  induction l using pyB64encode.induct with
  | case1 a b c rest ih =>
    intro h
    have ha : a < 256 := h a (by simp)
    have hb : b < 256 := h b (by simp)
    have hc : c < 256 := h c (by simp)
    simp only [pyB64encode, pyB64decode]
    rw [if_neg (encC_ne_pad _ (by omega)), if_neg (encC_ne_pad _ (by omega))]
    rw [decC_encC _ (by omega), decC_encC _ (by omega), decC_encC _ (by omega),
        decC_encC _ (by omega)]
    rw [ih (fun x hx => h x (by simp [hx]))]
    have e1 : a / 4 * 4 + (a % 4 * 16 + b / 16) / 16 = a := by omega
    have e2 : (a % 4 * 16 + b / 16) % 16 * 16 + (b % 16 * 4 + c / 64) / 4 = b := by omega
    have e3 : (b % 16 * 4 + c / 64) % 4 * 64 + c % 64 = c := by omega
    rw [e1, e2, e3]
  | case2 a b =>
    intro h
    have ha : a < 256 := h a (by simp)
    have hb : b < 256 := h b (by simp)
    simp only [pyB64encode, pyB64decode]
    rw [if_neg (encC_ne_pad _ (by omega)), if_pos trivial]
    rw [decC_encC _ (by omega), decC_encC _ (by omega), decC_encC _ (by omega)]
    have e1 : a / 4 * 4 + (a % 4 * 16 + b / 16) / 16 = a := by omega
    have e2 : (a % 4 * 16 + b / 16) % 16 * 16 + b % 16 * 4 / 4 = b := by omega
    rw [e1, e2]
  | case3 a =>
    intro h
    have ha : a < 256 := h a (by simp)
    simp only [pyB64encode, pyB64decode]
    rw [if_pos trivial]
    rw [decC_encC _ (by omega), decC_encC _ (by omega)]
    have e1 : a / 4 * 4 + a % 4 * 16 / 16 = a := by omega
    rw [e1]
  | case4 =>
    intro _
    rfl

/-! ## Percent-encoding (`urllib.parse.quote(..., safe="")`) -/

/-- Bytes that `urllib.parse.quote` never encodes: ASCII letters, digits,
and `-`, `.`, `_`, `~`.  With `safe=""` every other byte is percent-encoded. -/
def isUnreservedByte (b : Nat) : Bool :=
  (65 ≤ b && b ≤ 90) || (97 ≤ b && b ≤ 122) || (48 ≤ b && b ≤ 57) ||
    b == 45 || b == 46 || b == 95 || b == 126

/-- Uppercase hexadecimal digit for a value below 16, as a byte. -/
def hexDigitUpper (n : Nat) : Nat := if n < 10 then 48 + n else 55 + n

/-- Percent-encode one byte: kept verbatim when unreserved, otherwise
`%` followed by two uppercase hex digits. -/
def quoteByte (b : Nat) : List Nat :=
  if isUnreservedByte b then [b] else [37, hexDigitUpper (b / 16), hexDigitUpper (b % 16)]

/-- Python `urllib.parse.quote(bytes, safe="")` over a utf-8 byte list. -/
def urllibQuote (l : List Nat) : List Nat := l.flatMap quoteByte

/-- Join byte-list segments with a separator (used to speak about the
slash-separated segments of a repository file path). -/
def joinSep (sep : List Nat) : List (List Nat) → List Nat
  | [] => []
  | [x] => x
  | x :: y :: rest => x ++ sep ++ joinSep sep (y :: rest)

theorem urllibQuote_append (xs ys : List Nat) :
    urllibQuote (xs ++ ys) = urllibQuote xs ++ urllibQuote ys := by
  simp [urllibQuote]

theorem urllibQuote_joinSep (sep : List Nat) : ∀ segs : List (List Nat),
    urllibQuote (joinSep sep segs) = joinSep (urllibQuote sep) (segs.map urllibQuote)
  | [] => by simp [joinSep, urllibQuote]
  | [x] => by simp [joinSep]
  | x :: y :: rest => by
      simp only [joinSep, List.map_cons, urllibQuote_append]
      rw [urllibQuote_joinSep sep (y :: rest)]
      simp [joinSep]

/-! ## Data model

`Document` mirrors the fields the readers pass to the `Document` constructor.
`JsonValue` stands for the opaque result of `json.loads`; `Document.from_json`
is an external collaborator (the `Document` class is not part of the two
reader source files) and is modelled as an oracle in the environments below. -/

structure Document where
  text : String
  type : String
  name : String
  link : String
  path : String
  timestamp : String
  reader : String
deriving DecidableEq

structure JsonValue where
  raw : String
deriving DecidableEq

/-- Parsed GitHub location: `{owner}/{repo}/{branch}/{folder}`. -/
structure GithubLocation where
  owner : String
  repo : String
  branch : String
  folder_path : String
deriving DecidableEq

/-- Parsed GitLab location: `{project_id}/{branch}/{folder}`. -/
structure GitLabLocation where
  project_id : String
  branch : String
  folder_path : String
deriving DecidableEq

/-- One entry of a GitLab repository-tree listing (`type` is `"blob"` or `"tree"`). -/
structure GitLabItem where
  type : String
  path : String
deriving DecidableEq

/-- File reference produced by `GitLabReader.fetch_docs`:
`{"path": ..., "project_id": ..., "branch": ...}`. -/
structure GitLabFileRef where
  path : String
  project_id : String
  branch : String
deriving DecidableEq

/-! ## GithubReader -/

/-- The inline location parsing of `GithubReader.fetch_docs` / `download_file`:
`split = path.split("/")`, `owner = split[0]`, `repo = split[1]`,
`branch = split[2] if len(split) > 2 else "main"`,
`folder_path = "/".join(split[3:]) if len(split) > 3 else ""`.
Fewer than two segments raises `IndexError` in Python, modelled as `none`. -/
def GithubReader.parse_location (path : String) : Option GithubLocation :=
  match pySplit '/' path with
  | owner :: repo :: rest =>
      some { owner := owner, repo := repo, branch := rest.headD "main",
             folder_path := pyJoin "/" rest.tail }
  | _ => none

/-- `self.supported_file_types` of `GithubReader.__init__`: the base tuple,
extended with `.pdf` and `.epub` when `UNSTRUCTURED_API_URL` or
`UNSTRUCTURED_API_KEY` is set (`unstructured_configured`). -/
def GithubReader.supported_file_types (unstructured_configured : Bool) : List String :=
  if unstructured_configured then [".md", ".mdx", ".txt", ".json", ".pdf", ".epub"]
  else [".md", ".mdx", ".txt", ".json"]

/-- External collaborators of `GithubReader`, as oracles.  `Except.error ()`
models a raised Python exception (non-2xx via `raise_for_status`, malformed
JSON, a failing extraction service, ...).  `treeResp` is the JSON tree of the
recursive listing call, keyed by the parsed location the URL is built from;
`download` yields the `(content, link, path)` triple computed by
`download_file` for a file; `b64decode_bytes` is `base64.b64decode`;
`pdf_reader_load` is `PDFReader.load` on the temporary file path (modelling
the fallback block, whose local file write is assumed to succeed). -/
structure GithubEnv where
  treeResp : GithubLocation → Except Unit (List String)
  download : GithubLocation → String → Except Unit (String × String × String)
  unstructured_load_bytes : String → String → String → Except Unit (List Document)
  json_loads : String → Except Unit JsonValue
  from_json : JsonValue → Except Unit Document
  b64decode_bytes : String → Except Unit (List Nat)
  pdf_reader_load : String → Except Unit (List Document)

/-- `GithubReader.fetch_docs`: parse the location, request the recursive tree
(errors propagate — there is no try/except here), then client-side filter by
folder prefix and the six hard-coded extension checks.  Note the filter does
NOT consult `supported_file_types`: `.pdf` and `.epub` are always accepted. -/
def GithubReader.fetch_docs (treeResp : GithubLocation → Except Unit (List String))
    (path : String) : Except Unit (List String) :=
  match GithubReader.parse_location path with
  | none => Except.error ()
  | some loc =>
    match treeResp loc with
    | Except.error e => Except.error e
    | Except.ok items => Except.ok (items.filter (fun p =>
        pyStartswith p loc.folder_path &&
          (pyEndswith p ".md" || pyEndswith p ".mdx" || pyEndswith p ".txt" ||
           pyEndswith p ".json" || pyEndswith p ".pdf" || pyEndswith p ".epub")))

/-- Body of the per-file loop of `GithubReader.load`: returns the documents
appended for this file and the updated list of local files written; a
`Except.error` result models an exception escaping the loop (only the
uncaught `json.loads` failure and the re-raised `Document.from_json` failure). -/
def githubProcessFile (env : GithubEnv) (now document_type : String) (loc : GithubLocation)
    (file : String) (fs : List String) : Except Unit (List Document × List String) :=
  let filename := lastSegment file
  match env.download loc file with
  | Except.error _ => Except.ok ([], fs)
  | Except.ok (content, link, rpath) =>
    if pyEndswith filename ".pdf" || pyEndswith filename ".epub" then
      match env.unstructured_load_bytes content filename document_type with
      | Except.ok parsed_docs => Except.ok (parsed_docs, fs)
      | Except.error _ =>
        match env.b64decode_bytes content with
        | Except.error _ => Except.ok ([], fs)
        | Except.ok _pdf_bytes =>
          let temp_file_path := "temp_" ++ filename
          match env.pdf_reader_load temp_file_path with
          | Except.ok parsed_docs => Except.ok (parsed_docs, fs ++ [temp_file_path])
          | Except.error _ => Except.ok ([], fs ++ [temp_file_path])
    else if pyEndswith filename ".json" then
      match env.json_loads content with
      | Except.error _ => Except.error ()
      | Except.ok json_obj =>
        match env.from_json json_obj with
        | Except.error _ => Except.error ()
        | Except.ok document => Except.ok ([document], fs)
    else
      Except.ok ([{ text := content, type := document_type, name := file, link := link,
                    path := rpath, timestamp := now, reader := "GithubReader" }], fs)

/-- The inner `for _file in files` loop of `GithubReader.load`. -/
def githubProcessFiles (env : GithubEnv) (now document_type : String) (loc : GithubLocation) :
    List String → List String → Except Unit (List Document × List String)
  | [], fs => Except.ok ([], fs)
  | f :: rest, fs =>
    match githubProcessFile env now document_type loc f fs with
    | Except.error e => Except.error e
    | Except.ok (docs, fs') =>
      match githubProcessFiles env now document_type loc rest fs' with
      | Except.error e => Except.error e
      | Except.ok (docs', fs'') => Except.ok (docs ++ docs', fs'')

/-- `GithubReader.load` restricted to the `paths` input (the only branch the
source exercises): for each non-empty path, `fetch_docs` (failures propagate)
and the per-file loop.  The second list argument threads the names of local
files written (the temporary PDF files); the result pairs the produced
documents with the final written-file list. -/
def GithubReader.load (env : GithubEnv) (now document_type : String) :
    List String → List String → Except Unit (List Document × List String)
  | [], fs => Except.ok ([], fs)
  | p :: rest, fs =>
    if p = "" then GithubReader.load env now document_type rest fs
    else
      match GithubReader.fetch_docs env.treeResp p with
      | Except.error e => Except.error e
      | Except.ok files =>
        match GithubReader.parse_location p with
        | none => Except.error ()
        | some loc =>
          match githubProcessFiles env now document_type loc files fs with
          | Except.error e => Except.error e
          | Except.ok (docs, fs') =>
            match GithubReader.load env now document_type rest fs' with
            | Except.error e => Except.error e
            | Except.ok (docs', fs'') => Except.ok (docs ++ docs', fs'')

/-! ## GitLabReader -/

/-- `GitLabReader._parse_path`: `split = path.split('/')`,
`project_id = split[0]`, `branch = split[1]`,
`folder_path = '/'.join(split[2:]) if len(split) > 2 else ""`.
Fewer than two segments raises `IndexError`, modelled as `none`. -/
def GitLabReader._parse_path (path : String) : Option GitLabLocation :=
  match pySplit '/' path with
  | project_id :: branch :: rest =>
      some { project_id := project_id, branch := branch,
             folder_path := pyJoin "/" rest }
  | _ => none

/-- `self.supported_file_types` of `GitLabReader.__init__`: the base tuple,
extended with `.pdf` (only) when the unstructured service is configured. -/
def GitLabReader.supported_file_types (unstructured_configured : Bool) : List String :=
  if unstructured_configured then [".md", ".mdx", ".txt", ".json", ".pdf"]
  else [".md", ".mdx", ".txt", ".json"]

/-- External collaborators of `GitLabReader`, as oracles. `tree` is the JSON
body of one tree-listing call, keyed by project, branch and folder path;
`download` yields the content string computed by `download_file` for one file
(keyed by project, branch and file path); the remaining fields are as in
`GithubEnv`. -/
structure GitLabEnv where
  tree : String → String → String → Except Unit (List GitLabItem)
  download : String → String → String → Except Unit String
  unstructured_load_bytes : String → String → String → Except Unit (List Document)
  json_loads : String → Except Unit JsonValue
  from_json : JsonValue → Except Unit Document
  b64decode_bytes : String → Except Unit (List Nat)
  pdf_reader_load : String → Except Unit (List Document)

/-- The recursive traversal of `GitLabReader.fetch_docs` (the branch where
`project_id` and `branch` are already known).  The whole body sits in a
`try/except` that logs and returns the accumulated (here: empty) list, so a
failing listing call yields `[]` for that branch of the recursion; `blob`
entries matching `supported_file_types` become file references, `tree`
entries recurse depth-first.  `fuel` bounds the recursion depth (Python's
recursion limit; exceeding it raises `RecursionError`, which the same
`except` catches, again yielding `[]`). -/
def GitLabReader.fetch_docs_rec (tree : String → String → String → Except Unit (List GitLabItem))
    (supported : List String) (project_id branch : String) :
    Nat → String → List GitLabFileRef
  | 0, _ => []
  | fuel + 1, folder_path =>
    match tree project_id branch folder_path with
    | Except.error _ => []
    | Except.ok items =>
      items.flatMap (fun item =>
        if item.type == "blob" && supported.any (fun ext => pyEndswith item.path ext) then
          [{ path := item.path, project_id := project_id, branch := branch }]
        else if item.type == "tree" then
          GitLabReader.fetch_docs_rec tree supported project_id branch fuel item.path
        else [])

/-- Entry point of `GitLabReader.fetch_docs` for a user-supplied location
string: `_parse_path` runs before the `try` block, so its `IndexError`
propagates (modelled as `Except.error`); afterwards no exception escapes. -/
def GitLabReader.fetch_docs (env : GitLabEnv) (unstructured_configured : Bool) (fuel : Nat)
    (path : String) : Except Unit (List GitLabFileRef) :=
  match GitLabReader._parse_path path with
  | none => Except.error ()
  | some loc =>
    Except.ok (GitLabReader.fetch_docs_rec env.tree
      (GitLabReader.supported_file_types unstructured_configured)
      loc.project_id loc.branch fuel loc.folder_path)

/-- The source link constructed by `GitLabReader.download_file`. -/
def gitlabLink (project_id branch file_path : String) : String :=
  "https://gitlab.com/" ++ project_id ++ "/-/blob/" ++ branch ++ "/" ++ file_path

/-- Body of the per-file loop of `GitLabReader.load`.  Only the
`download_file` call is inside a `try/except continue`; the JSON branch has
no exception handling at all, so both `json.loads` and `Document.from_json`
failures escape (`Except.error`). -/
def gitlabProcessFile (env : GitLabEnv) (now document_type : String) (loc : GitLabLocation)
    (ref : GitLabFileRef) (fs : List String) : Except Unit (List Document × List String) :=
  match env.download loc.project_id loc.branch ref.path with
  | Except.error _ => Except.ok ([], fs)
  | Except.ok content =>
    let rpath := ref.path
    let link := gitlabLink loc.project_id loc.branch rpath
    let filename := lastSegment rpath
    if pyEndswith rpath ".pdf" then
      match env.unstructured_load_bytes content filename document_type with
      | Except.ok parsed_docs => Except.ok (parsed_docs, fs)
      | Except.error _ =>
        match env.b64decode_bytes content with
        | Except.error _ => Except.ok ([], fs)
        | Except.ok _pdf_bytes =>
          let temp_file_path := "temp_" ++ filename
          match env.pdf_reader_load temp_file_path with
          | Except.ok parsed_docs => Except.ok (parsed_docs, fs ++ [temp_file_path])
          | Except.error _ => Except.ok ([], fs ++ [temp_file_path])
    else if pyEndswith rpath ".json" then
      match env.json_loads content with
      | Except.error _ => Except.error ()
      | Except.ok json_obj =>
        match env.from_json json_obj with
        | Except.error _ => Except.error ()
        | Except.ok document => Except.ok ([document], fs)
    else
      Except.ok ([{ text := content, type := document_type, name := filename, link := link,
                    path := rpath, timestamp := now, reader := "GitLabReader" }], fs)

/-- The inner `for _file in files` loop of `GitLabReader.load`. -/
def gitlabProcessFiles (env : GitLabEnv) (now document_type : String) (loc : GitLabLocation) :
    List GitLabFileRef → List String → Except Unit (List Document × List String)
  | [], fs => Except.ok ([], fs)
  | ref :: rest, fs =>
    match gitlabProcessFile env now document_type loc ref fs with
    | Except.error e => Except.error e
    | Except.ok (docs, fs') =>
      match gitlabProcessFiles env now document_type loc rest fs' with
      | Except.error e => Except.error e
      | Except.ok (docs', fs'') => Except.ok (docs ++ docs', fs'')

/-- `GitLabReader.load` restricted to the `paths` input: `fetch_docs` is
wrapped in `try/except continue` — and once `_parse_path` succeeds,
`fetch_docs` cannot raise — so a malformed path is skipped; per-file errors
other than the download are NOT caught and abort the whole call. -/
def GitLabReader.load (env : GitLabEnv) (unstructured_configured : Bool) (fuel : Nat)
    (now document_type : String) :
    List String → List String → Except Unit (List Document × List String)
  | [], fs => Except.ok ([], fs)
  | p :: rest, fs =>
    match GitLabReader._parse_path p with
    | none => GitLabReader.load env unstructured_configured fuel now document_type rest fs
    | some loc =>
      match gitlabProcessFiles env now document_type loc
          (GitLabReader.fetch_docs_rec env.tree
            (GitLabReader.supported_file_types unstructured_configured)
            loc.project_id loc.branch fuel loc.folder_path) fs with
      | Except.error e => Except.error e
      | Except.ok (docs, fs') =>
        match GitLabReader.load env unstructured_configured fuel now document_type rest fs' with
        | Except.error e => Except.error e
        | Except.ok (docs', fs'') => Except.ok (docs ++ docs', fs'')

/-! ## Content computation of `download_file` (byte level) -/

/-- Content computed by `GithubReader.download_file`: for `.pdf`/`.epub` the
bytes fetched from the embedded `download_url` are base64-encoded; otherwise
the base64 `content` field of the response is decoded.  (Python decodes the
result to a utf-8 `str`; we stay at the byte level.) -/
def GithubReader.download_file_content (file_path : String)
    (content_field download_bytes : List Nat) : List Nat :=
  if pyEndswith file_path ".pdf" || pyEndswith file_path ".epub" then
    pyB64encode download_bytes
  else pyB64decode content_field

/-- Content computed by `GitLabReader.download_file`: for `.pdf` the raw
response bytes are base64-encoded, otherwise the response text is used
directly (modelled at the byte level). -/
def GitLabReader.download_file_content (file_path : String)
    (response_bytes : List Nat) : List Nat :=
  if pyEndswith file_path ".pdf" then pyB64encode response_bytes else response_bytes

/-- Encoding applied by `GithubReader.download_file`:
`urllib.parse.quote(file_path.encode("utf-8"), safe="")`. -/
def GithubReader.encoded_file_path (file_path_utf8 : List Nat) : List Nat :=
  urllibQuote file_path_utf8

/-- Encoding applied by `GitLabReader.download_file`:
`urllib.parse.quote(file_path.encode("utf-8"), safe="")`. -/
def GitLabReader.encoded_file_path (file_path_utf8 : List Nat) : List Nat :=
  urllibQuote file_path_utf8

/-! ## Helper lemmas -/

theorem pyEndswith_json_excl {s : String} (h : pyEndswith s ".json" = true) :
    pyEndswith s ".pdf" = false ∧ pyEndswith s ".epub" = false := by
  have hj : (".json").data <:+ s.data := of_decide_eq_true h
  constructor
  · by_contra hp
    rw [Bool.not_eq_false] at hp
    have hpdf : (".pdf").data <:+ s.data := of_decide_eq_true hp
    rcases List.suffix_or_suffix_of_suffix hpdf hj with h1 | h1
    · exact absurd h1 (by decide)
    · exact absurd h1 (by decide)
  · by_contra hp
    rw [Bool.not_eq_false] at hp
    have hepub : (".epub").data <:+ s.data := of_decide_eq_true hp
    rcases List.suffix_or_suffix_of_suffix hepub hj with h1 | h1
    · exact absurd h1 (by decide)
    · exact absurd h1 (by decide)

theorem github_fetch_allowlist (treeResp : GithubLocation → Except Unit (List String))
    (path : String) (files : List String)
    (h : GithubReader.fetch_docs treeResp path = Except.ok files) :
    ∀ f ∈ files, ∃ ext ∈ [".md", ".mdx", ".txt", ".json", ".pdf", ".epub"],
      pyEndswith f ext = true := by
  unfold GithubReader.fetch_docs at h
  cases hp : GithubReader.parse_location path with
  | none => rw [hp] at h; exact absurd h (by simp)
  | some loc =>
    rw [hp] at h
    dsimp only at h
    cases ht : treeResp loc with
    | error e => rw [ht] at h; exact absurd h (by simp)
    | ok items =>
      rw [ht] at h
      have hfiles : items.filter (fun p =>
          pyStartswith p loc.folder_path &&
            (pyEndswith p ".md" || pyEndswith p ".mdx" || pyEndswith p ".txt" ||
             pyEndswith p ".json" || pyEndswith p ".pdf" || pyEndswith p ".epub")) = files :=
        by injection h
      intro f hf
      rw [← hfiles] at hf
      have hpred := List.of_mem_filter hf
      simp only [Bool.and_eq_true, Bool.or_eq_true] at hpred
      rcases hpred.2 with ((((h1 | h1) | h1) | h1) | h1) | h1
      · exact ⟨".md", by decide, h1⟩
      · exact ⟨".mdx", by decide, h1⟩
      · exact ⟨".txt", by decide, h1⟩
      · exact ⟨".json", by decide, h1⟩
      · exact ⟨".pdf", by decide, h1⟩
      · exact ⟨".epub", by decide, h1⟩

theorem gitlab_fetch_rec_allowlist (tree : String → String → String → Except Unit (List GitLabItem))
    (supported : List String) (project_id branch : String) :
    ∀ fuel folder, ∀ ref ∈ GitLabReader.fetch_docs_rec tree supported project_id branch fuel folder,
      ∃ ext ∈ supported, pyEndswith ref.path ext = true := by
  intro fuel
  induction fuel with
  | zero =>
    intro folder ref h
    exact absurd h (by simp [GitLabReader.fetch_docs_rec])
  | succ n ih =>
    intro folder ref h
    rw [GitLabReader.fetch_docs_rec] at h
    cases htree : tree project_id branch folder with
    | error e => rw [htree] at h; exact absurd h (by simp)
    | ok items =>
      rw [htree] at h
      simp only [List.mem_flatMap] at h
      obtain ⟨item, _hitem, hmem⟩ := h
      split at hmem
      case isTrue hb =>
        rw [Bool.and_eq_true] at hb
        rw [List.mem_singleton] at hmem
        obtain ⟨ext, hext, hends⟩ := List.any_eq_true.mp hb.2
        exact ⟨ext, hext, by rw [hmem]; exact hends⟩
      case isFalse =>
        split at hmem
        case isTrue => exact ih item.path ref hmem
        case isFalse => exact absurd hmem (by simp)

/-! ## Claims -/

/-- C1 counterexample: with no PDF-extraction endpoint configured
(`unstructured_configured = false`, so the configured allow-list is only
`{.md, .mdx, .txt, .json}`), the GitHub tree listing nevertheless returns
the path `"a.pdf"`, whose suffix matches none of the allow-listed
extensions — the hard-coded filter of `GithubReader.fetch_docs` always
accepts `.pdf`/`.epub`, contradicting the claim. -/
theorem c1_counterexample :
    GithubReader.fetch_docs (fun _ => Except.ok ["a.pdf"]) "o/r" = Except.ok ["a.pdf"] ∧
    GithubReader.supported_file_types false = [".md", ".mdx", ".txt", ".json"] ∧
    pyEndswith "a.pdf" ".md" = false ∧ pyEndswith "a.pdf" ".mdx" = false ∧
    pyEndswith "a.pdf" ".txt" = false ∧ pyEndswith "a.pdf" ".json" = false :=
  ⟨rfl, by decide, by decide, by decide, by decide, by decide⟩

/-- C1 (amended): every path returned by the GitHub tree listing has a
suffix in the fixed set {.md, .mdx, .txt, .json, .pdf, .epub}, irrespective
of whether a PDF-extraction endpoint is configured; every file reference
returned by the GitLab traversal has a suffix in the configured allow-list
(the base set, extended with .pdf exactly when the endpoint is configured). -/
theorem c1_allowlist_filtering (treeResp : GithubLocation → Except Unit (List String))
    (path : String) (files : List String)
    (tree : String → String → String → Except Unit (List GitLabItem)) (cfg : Bool)
    (project_id branch : String) (fuel : Nat) (folder : String)
    (hfetch : GithubReader.fetch_docs treeResp path = Except.ok files) :
    (∀ f ∈ files, ∃ ext ∈ [".md", ".mdx", ".txt", ".json", ".pdf", ".epub"],
      pyEndswith f ext = true) ∧
    (∀ ref ∈ GitLabReader.fetch_docs_rec tree (GitLabReader.supported_file_types cfg)
        project_id branch fuel folder,
      ∃ ext ∈ GitLabReader.supported_file_types cfg, pyEndswith ref.path ext = true) :=
  ⟨github_fetch_allowlist treeResp path files hfetch,
   gitlab_fetch_rec_allowlist tree _ project_id branch fuel folder⟩

/-- Witness for `c1_allowlist_filtering` at a concrete listing. -/
theorem c1_allowlist_filtering_witness :
    (∀ f ∈ ["a.md"], ∃ ext ∈ [".md", ".mdx", ".txt", ".json", ".pdf", ".epub"],
      pyEndswith f ext = true) ∧
    (∀ ref ∈ GitLabReader.fetch_docs_rec (fun _ _ _ => Except.ok [⟨"blob", "a.md"⟩])
        (GitLabReader.supported_file_types false) "p" "main" 1 "",
      ∃ ext ∈ GitLabReader.supported_file_types false, pyEndswith ref.path ext = true) :=
  c1_allowlist_filtering (fun _ => Except.ok ["a.md"]) "o/r" ["a.md"]
    (fun _ _ _ => Except.ok [⟨"blob", "a.md"⟩]) false "p" "main" 1 "" rfl

/-- C2: for a location string with at least three slash-separated segments
the parsed branch is the third segment for GitHub and the second for GitLab;
for a GitHub location string with exactly two segments the branch defaults
to "main". -/
theorem c2_branch_parsing (path path2 s0 s1 s2 t0 t1 : String) (rest : List String)
    (h1 : pySplit '/' path = s0 :: s1 :: s2 :: rest)
    (h2 : pySplit '/' path2 = [t0, t1]) :
    (GithubReader.parse_location path).map GithubLocation.branch = some s2 ∧
    (GitLabReader._parse_path path).map GitLabLocation.branch = some s1 ∧
    (GithubReader.parse_location path2).map GithubLocation.branch = some "main" := by
  unfold GithubReader.parse_location GitLabReader._parse_path
  rw [h1, h2]
  simp

/-- Witness for `c2_branch_parsing` at concrete location strings. -/
theorem c2_branch_parsing_witness :
    (GithubReader.parse_location "a/b/c/d").map GithubLocation.branch = some "c" ∧
    (GitLabReader._parse_path "a/b/c/d").map GitLabLocation.branch = some "b" ∧
    (GithubReader.parse_location "a/b").map GithubLocation.branch = some "main" :=
  c2_branch_parsing "a/b/c/d" "a/b" "a" "b" "c" "a" "b" ["d"] (by decide) (by decide)

/-- C3: a failing content fetch (e.g. a non-2xx response raised by
`raise_for_status`) for one file is caught by the per-file `try/except`,
yields zero documents for that file, and leaves processing of the remaining
files of the batch unchanged — in both adapters. -/
theorem c3_download_error_skips_file (envG : GithubEnv) (envL : GitLabEnv)
    (now dt : String) (locG : GithubLocation) (locL : GitLabLocation)
    (f : String) (ref : GitLabFileRef) (restG : List String) (restL : List GitLabFileRef)
    (fsG fsL : List String)
    (hG : envG.download locG f = Except.error ())
    (hL : envL.download locL.project_id locL.branch ref.path = Except.error ()) :
    githubProcessFile envG now dt locG f fsG = Except.ok ([], fsG) ∧
    githubProcessFiles envG now dt locG (f :: restG) fsG =
      githubProcessFiles envG now dt locG restG fsG ∧
    gitlabProcessFile envL now dt locL ref fsL = Except.ok ([], fsL) ∧
    gitlabProcessFiles envL now dt locL (ref :: restL) fsL =
      gitlabProcessFiles envL now dt locL restL fsL := by
  have h1 : githubProcessFile envG now dt locG f fsG = Except.ok ([], fsG) := by
    unfold githubProcessFile
    rw [hG]
  have h2 : gitlabProcessFile envL now dt locL ref fsL = Except.ok ([], fsL) := by
    unfold gitlabProcessFile
    rw [hL]
  refine ⟨h1, ?_, h2, ?_⟩
  · rw [githubProcessFiles, h1]
    dsimp only
    cases hr : githubProcessFiles envG now dt locG restG fsG with
    | error e => rfl
    | ok pr => cases pr; simp
  · rw [gitlabProcessFiles, h2]
    dsimp only
    cases hr : gitlabProcessFiles envL now dt locL restL fsL with
    | error e => rfl
    | ok pr => cases pr; simp

/-- Witness for `c3_download_error_skips_file`: environments whose download
oracle always fails. -/
theorem c3_download_error_skips_file_witness :
    githubProcessFile
      ⟨fun _ => Except.ok [], fun _ _ => Except.error (), fun _ _ _ => Except.error (),
       fun _ => Except.error (), fun _ => Except.error (), fun _ => Except.error (),
       fun _ => Except.error ()⟩
      "t" "Documentation" ⟨"o", "r", "main", ""⟩ "a.md" [] = Except.ok ([], []) ∧
    githubProcessFiles
      ⟨fun _ => Except.ok [], fun _ _ => Except.error (), fun _ _ _ => Except.error (),
       fun _ => Except.error (), fun _ => Except.error (), fun _ => Except.error (),
       fun _ => Except.error ()⟩
      "t" "Documentation" ⟨"o", "r", "main", ""⟩ ["a.md"] [] =
      githubProcessFiles
        ⟨fun _ => Except.ok [], fun _ _ => Except.error (), fun _ _ _ => Except.error (),
         fun _ => Except.error (), fun _ => Except.error (), fun _ => Except.error (),
         fun _ => Except.error ()⟩
        "t" "Documentation" ⟨"o", "r", "main", ""⟩ [] [] ∧
    gitlabProcessFile
      ⟨fun _ _ _ => Except.ok [], fun _ _ _ => Except.error (), fun _ _ _ => Except.error (),
       fun _ => Except.error (), fun _ => Except.error (), fun _ => Except.error (),
       fun _ => Except.error ()⟩
      "t" "Documentation" ⟨"p", "main", ""⟩ ⟨"a.md", "p", "main"⟩ [] = Except.ok ([], []) ∧
    gitlabProcessFiles
      ⟨fun _ _ _ => Except.ok [], fun _ _ _ => Except.error (), fun _ _ _ => Except.error (),
       fun _ => Except.error (), fun _ => Except.error (), fun _ => Except.error (),
       fun _ => Except.error ()⟩
      "t" "Documentation" ⟨"p", "main", ""⟩ [⟨"a.md", "p", "main"⟩] [] =
      gitlabProcessFiles
        ⟨fun _ _ _ => Except.ok [], fun _ _ _ => Except.error (), fun _ _ _ => Except.error (),
         fun _ => Except.error (), fun _ => Except.error (), fun _ => Except.error (),
         fun _ => Except.error ()⟩
        "t" "Documentation" ⟨"p", "main", ""⟩ [] [] :=
  c3_download_error_skips_file _ _ "t" "Documentation" ⟨"o", "r", "main", ""⟩
    ⟨"p", "main", ""⟩ "a.md" ⟨"a.md", "p", "main"⟩ [] [] [] [] rfl rfl

/-- C4: in the GitHub adapter, `json.loads` runs outside any `try` block, so
a JSON parse failure for a `.json` file escapes the per-file loop and aborts
the whole `load` call. -/
theorem c4_github_json_parse_failure_aborts (env : GithubEnv) (now dt p : String)
    (loc : GithubLocation) (f content link rpath : String)
    (restF restP fs : List String)
    (hne : p ≠ "")
    (hparse : GithubReader.parse_location p = some loc)
    (hfetch : GithubReader.fetch_docs env.treeResp p = Except.ok (f :: restF))
    (hdl : env.download loc f = Except.ok (content, link, rpath))
    (hjson : pyEndswith (lastSegment f) ".json" = true)
    (hloads : env.json_loads content = Except.error ()) :
    githubProcessFile env now dt loc f fs = Except.error () ∧
    GithubReader.load env now dt (p :: restP) fs = Except.error () := by
  obtain ⟨hpdf, hepub⟩ := pyEndswith_json_excl hjson
  have h1 : githubProcessFile env now dt loc f fs = Except.error () := by
    simp [githubProcessFile, hdl, hpdf, hepub, hjson, hloads]
  refine ⟨h1, ?_⟩
  rw [GithubReader.load, if_neg hne, hfetch]
  dsimp only
  rw [hparse]
  dsimp only
  rw [githubProcessFiles, h1]

/-- Witness for `c4_github_json_parse_failure_aborts`: a listing containing
one `.json` file whose content the JSON parser rejects. -/
theorem c4_github_json_parse_failure_aborts_witness :
    githubProcessFile
      ⟨fun _ => Except.ok ["x.json"], fun _ _ => Except.ok ("notjson", "L", "x.json"),
       fun _ _ _ => Except.error (), fun _ => Except.error (), fun _ => Except.error (),
       fun _ => Except.error (), fun _ => Except.error ()⟩
      "t" "Documentation" ⟨"o", "r", "main", ""⟩ "x.json" [] = Except.error () ∧
    GithubReader.load
      ⟨fun _ => Except.ok ["x.json"], fun _ _ => Except.ok ("notjson", "L", "x.json"),
       fun _ _ _ => Except.error (), fun _ => Except.error (), fun _ => Except.error (),
       fun _ => Except.error (), fun _ => Except.error ()⟩
      "t" "Documentation" ["o/r"] [] = Except.error () :=
  c4_github_json_parse_failure_aborts _ "t" "Documentation" "o/r"
    ⟨"o", "r", "main", ""⟩ "x.json" "notjson" "L" "x.json" [] [] []
    (by decide) (by decide) rfl rfl (by decide) rfl

/-- C5: a listing failure is handled asymmetrically — the GitLab traversal
catches it and yields an empty list for that branch of the recursion, while
in the GitHub adapter `fetch_docs` raises and `load` does not catch it, so
the error surfaces to the caller of `load`. -/
theorem c5_listing_failure_asymmetry (env : GithubEnv) (envL : GitLabEnv)
    (now dt p : String) (loc : GithubLocation) (restP fs : List String)
    (supported : List String) (project_id branch folder : String) (fuel : Nat)
    (hne : p ≠ "") (hparse : GithubReader.parse_location p = some loc)
    (hfail : env.treeResp loc = Except.error ())
    (hfailL : envL.tree project_id branch folder = Except.error ()) :
    GithubReader.load env now dt (p :: restP) fs = Except.error () ∧
    GitLabReader.fetch_docs_rec envL.tree supported project_id branch (fuel + 1) folder = [] := by
  constructor
  · have hf : GithubReader.fetch_docs env.treeResp p = Except.error () := by
      unfold GithubReader.fetch_docs
      rw [hparse]
      dsimp only
      rw [hfail]
    rw [GithubReader.load, if_neg hne, hf]
  · rw [GitLabReader.fetch_docs_rec, hfailL]

/-- Witness for `c5_listing_failure_asymmetry`: tree-listing oracles that
always fail. -/
theorem c5_listing_failure_asymmetry_witness :
    GithubReader.load
      ⟨fun _ => Except.error (), fun _ _ => Except.error (), fun _ _ _ => Except.error (),
       fun _ => Except.error (), fun _ => Except.error (), fun _ => Except.error (),
       fun _ => Except.error ()⟩
      "t" "Documentation" ["o/r"] [] = Except.error () ∧
    GitLabReader.fetch_docs_rec
      (fun _ _ _ => Except.error ()) [".md"] "p" "main" 1 "" = [] :=
  c5_listing_failure_asymmetry
    ⟨fun _ => Except.error (), fun _ _ => Except.error (), fun _ _ _ => Except.error (),
     fun _ => Except.error (), fun _ => Except.error (), fun _ => Except.error (),
     fun _ => Except.error ()⟩
    ⟨fun _ _ _ => Except.error (), fun _ _ _ => Except.error (), fun _ _ _ => Except.error (),
     fun _ => Except.error (), fun _ => Except.error (), fun _ => Except.error (),
     fun _ => Except.error ()⟩
    "t" "Documentation" "o/r" ⟨"o", "r", "main", ""⟩ [] [] [".md"] "p" "main" "" 0
    (by decide) (by decide) rfl rfl

/-- C6: for a `.pdf` file (or `.epub`, GitHub only — the GitHub dispatch
tests both suffixes, so the same branch applies) document assembly first
delegates to the external extraction service and uses its result on success;
when the service raises, the content is base64-decoded, written to the
temporary file `temp_<filename>`, and the local PDF extractor is invoked;
when that also raises, the file yields zero documents and processing of the
remaining batch continues.  Environments 1 exercise the service-success
path, environments 2 the double-failure path. -/
theorem c6_pdf_extraction_fallback
    (envG1 envG2 : GithubEnv) (envL1 envL2 : GitLabEnv) (now dt : String)
    (locG : GithubLocation) (locL : GitLabLocation)
    (f : String) (ref : GitLabFileRef)
    (c1 l1 p1 c2 l2 p2 cL1 cL2 : String)
    (served servedL : List Document) (bts btsL : List Nat)
    (restG : List String) (restL : List GitLabFileRef) (fsG fsL : List String)
    (hpdfG : pyEndswith (lastSegment f) ".pdf" = true)
    (hpdfL : pyEndswith ref.path ".pdf" = true)
    (hdl1 : envG1.download locG f = Except.ok (c1, l1, p1))
    (hun1 : envG1.unstructured_load_bytes c1 (lastSegment f) dt = Except.ok served)
    (hdlL1 : envL1.download locL.project_id locL.branch ref.path = Except.ok cL1)
    (hunL1 : envL1.unstructured_load_bytes cL1 (lastSegment ref.path) dt = Except.ok servedL)
    (hdl2 : envG2.download locG f = Except.ok (c2, l2, p2))
    (hun2 : envG2.unstructured_load_bytes c2 (lastSegment f) dt = Except.error ())
    (hdec2 : envG2.b64decode_bytes c2 = Except.ok bts)
    (hpdfr2 : envG2.pdf_reader_load ("temp_" ++ lastSegment f) = Except.error ())
    (hdlL2 : envL2.download locL.project_id locL.branch ref.path = Except.ok cL2)
    (hunL2 : envL2.unstructured_load_bytes cL2 (lastSegment ref.path) dt = Except.error ())
    (hdecL2 : envL2.b64decode_bytes cL2 = Except.ok btsL)
    (hpdfrL2 : envL2.pdf_reader_load ("temp_" ++ lastSegment ref.path) = Except.error ()) :
    githubProcessFile envG1 now dt locG f fsG = Except.ok (served, fsG) ∧
    gitlabProcessFile envL1 now dt locL ref fsL = Except.ok (servedL, fsL) ∧
    githubProcessFile envG2 now dt locG f fsG =
      Except.ok ([], fsG ++ ["temp_" ++ lastSegment f]) ∧
    githubProcessFiles envG2 now dt locG (f :: restG) fsG =
      githubProcessFiles envG2 now dt locG restG (fsG ++ ["temp_" ++ lastSegment f]) ∧
    gitlabProcessFile envL2 now dt locL ref fsL =
      Except.ok ([], fsL ++ ["temp_" ++ lastSegment ref.path]) ∧
    gitlabProcessFiles envL2 now dt locL (ref :: restL) fsL =
      gitlabProcessFiles envL2 now dt locL restL (fsL ++ ["temp_" ++ lastSegment ref.path]) := by
  have h3 : githubProcessFile envG2 now dt locG f fsG =
      Except.ok ([], fsG ++ ["temp_" ++ lastSegment f]) := by
    simp [githubProcessFile, hdl2, hpdfG, hun2, hdec2, hpdfr2]
  have h5 : gitlabProcessFile envL2 now dt locL ref fsL =
      Except.ok ([], fsL ++ ["temp_" ++ lastSegment ref.path]) := by
    simp [gitlabProcessFile, hdlL2, hpdfL, hunL2, hdecL2, hpdfrL2]
  refine ⟨?_, ?_, h3, ?_, h5, ?_⟩
  · simp [githubProcessFile, hdl1, hpdfG, hun1]
  · simp [gitlabProcessFile, hdlL1, hpdfL, hunL1]
  · rw [githubProcessFiles, h3]
    dsimp only
    cases hr : githubProcessFiles envG2 now dt locG restG (fsG ++ ["temp_" ++ lastSegment f]) with
    | error e => rfl
    | ok pr => cases pr; simp
  · rw [gitlabProcessFiles, h5]
    dsimp only
    cases hr : gitlabProcessFiles envL2 now dt locL restL
        (fsL ++ ["temp_" ++ lastSegment ref.path]) with
    | error e => rfl
    | ok pr => cases pr; simp

/-- Witness for `c6_pdf_extraction_fallback`: a `.pdf` file under concrete
environments (service succeeding with no documents, resp. service and local
extractor both failing). -/
theorem c6_pdf_extraction_fallback_witness :
    githubProcessFile
      ⟨fun _ => Except.ok [], fun _ _ => Except.ok ("QQ==", "L", "a.pdf"),
       fun _ _ _ => Except.ok [], fun _ => Except.error (), fun _ => Except.error (),
       fun _ => Except.error (), fun _ => Except.error ()⟩
      "t" "Documentation" ⟨"o", "r", "main", ""⟩ "a.pdf" [] = Except.ok ([], []) ∧
    gitlabProcessFile
      ⟨fun _ _ _ => Except.ok [], fun _ _ _ => Except.ok "QQ==",
       fun _ _ _ => Except.ok [], fun _ => Except.error (), fun _ => Except.error (),
       fun _ => Except.error (), fun _ => Except.error ()⟩
      "t" "Documentation" ⟨"p", "main", ""⟩ ⟨"a.pdf", "p", "main"⟩ [] = Except.ok ([], []) ∧
    githubProcessFile
      ⟨fun _ => Except.ok [], fun _ _ => Except.ok ("QQ==", "L", "a.pdf"),
       fun _ _ _ => Except.error (), fun _ => Except.error (), fun _ => Except.error (),
       fun _ => Except.ok [65], fun _ => Except.error ()⟩
      "t" "Documentation" ⟨"o", "r", "main", ""⟩ "a.pdf" [] =
      Except.ok ([], ["temp_" ++ lastSegment "a.pdf"]) ∧
    githubProcessFiles
      ⟨fun _ => Except.ok [], fun _ _ => Except.ok ("QQ==", "L", "a.pdf"),
       fun _ _ _ => Except.error (), fun _ => Except.error (), fun _ => Except.error (),
       fun _ => Except.ok [65], fun _ => Except.error ()⟩
      "t" "Documentation" ⟨"o", "r", "main", ""⟩ ["a.pdf"] [] =
      githubProcessFiles
        ⟨fun _ => Except.ok [], fun _ _ => Except.ok ("QQ==", "L", "a.pdf"),
         fun _ _ _ => Except.error (), fun _ => Except.error (), fun _ => Except.error (),
         fun _ => Except.ok [65], fun _ => Except.error ()⟩
        "t" "Documentation" ⟨"o", "r", "main", ""⟩ [] (["temp_" ++ lastSegment "a.pdf"]) ∧
    gitlabProcessFile
      ⟨fun _ _ _ => Except.ok [], fun _ _ _ => Except.ok "QQ==",
       fun _ _ _ => Except.error (), fun _ => Except.error (), fun _ => Except.error (),
       fun _ => Except.ok [65], fun _ => Except.error ()⟩
      "t" "Documentation" ⟨"p", "main", ""⟩ ⟨"a.pdf", "p", "main"⟩ [] =
      Except.ok ([], ["temp_" ++ lastSegment "a.pdf"]) ∧
    gitlabProcessFiles
      ⟨fun _ _ _ => Except.ok [], fun _ _ _ => Except.ok "QQ==",
       fun _ _ _ => Except.error (), fun _ => Except.error (), fun _ => Except.error (),
       fun _ => Except.ok [65], fun _ => Except.error ()⟩
      "t" "Documentation" ⟨"p", "main", ""⟩ [⟨"a.pdf", "p", "main"⟩] [] =
      gitlabProcessFiles
        ⟨fun _ _ _ => Except.ok [], fun _ _ _ => Except.ok "QQ==",
         fun _ _ _ => Except.error (), fun _ => Except.error (), fun _ => Except.error (),
         fun _ => Except.ok [65], fun _ => Except.error ()⟩
        "t" "Documentation" ⟨"p", "main", ""⟩ [] (["temp_" ++ lastSegment "a.pdf"]) := by
  simpa using c6_pdf_extraction_fallback
    ⟨fun _ => Except.ok [], fun _ _ => Except.ok ("QQ==", "L", "a.pdf"),
     fun _ _ _ => Except.ok [], fun _ => Except.error (), fun _ => Except.error (),
     fun _ => Except.error (), fun _ => Except.error ()⟩
    ⟨fun _ => Except.ok [], fun _ _ => Except.ok ("QQ==", "L", "a.pdf"),
     fun _ _ _ => Except.error (), fun _ => Except.error (), fun _ => Except.error (),
     fun _ => Except.ok [65], fun _ => Except.error ()⟩
    ⟨fun _ _ _ => Except.ok [], fun _ _ _ => Except.ok "QQ==",
     fun _ _ _ => Except.ok [], fun _ => Except.error (), fun _ => Except.error (),
     fun _ => Except.error (), fun _ => Except.error ()⟩
    ⟨fun _ _ _ => Except.ok [], fun _ _ _ => Except.ok "QQ==",
     fun _ _ _ => Except.error (), fun _ => Except.error (), fun _ => Except.error (),
     fun _ => Except.ok [65], fun _ => Except.error ()⟩
    "t" "Documentation" ⟨"o", "r", "main", ""⟩ ⟨"p", "main", ""⟩ "a.pdf"
    ⟨"a.pdf", "p", "main"⟩ "QQ==" "L" "a.pdf" "QQ==" "L" "a.pdf" "QQ==" "QQ=="
    [] [] [65] [65] [] [] [] []
    (by decide) (by decide) rfl rfl rfl rfl rfl rfl rfl rfl rfl rfl rfl rfl

/-- C7: content is preserved byte-for-byte — the base64 round-trip satisfies
`decode(encode(x)) = x` for every byte list, the content computed by either
adapter's `download_file` for a binary file decodes back to the fetched
bytes, and for a plain-text file the text wrapped into the document record
is exactly the content the fetch delivered. -/
theorem c7_content_preservation
    (x : List Nat) (hx : ∀ b ∈ x, b < 256) (fp : String)
    (content_field : List Nat) (hfp : pyEndswith fp ".pdf" = true)
    (env : GithubEnv) (envL : GitLabEnv) (now dt : String)
    (loc : GithubLocation) (locL : GitLabLocation)
    (f content link rpath : String) (ref : GitLabFileRef) (contentL : String)
    (fsG fsL : List String)
    (hdl : env.download loc f = Except.ok (content, link, rpath))
    (h1 : pyEndswith (lastSegment f) ".pdf" = false)
    (h2 : pyEndswith (lastSegment f) ".epub" = false)
    (h3 : pyEndswith (lastSegment f) ".json" = false)
    (hdlL : envL.download locL.project_id locL.branch ref.path = Except.ok contentL)
    (h4 : pyEndswith ref.path ".pdf" = false)
    (h5 : pyEndswith ref.path ".json" = false) :
    pyB64decode (pyB64encode x) = x ∧
    GithubReader.download_file_content fp content_field x = pyB64encode x ∧
    pyB64decode (GithubReader.download_file_content fp content_field x) = x ∧
    GitLabReader.download_file_content fp x = pyB64encode x ∧
    pyB64decode (GitLabReader.download_file_content fp x) = x ∧
    githubProcessFile env now dt loc f fsG =
      Except.ok ([{ text := content, type := dt, name := f, link := link, path := rpath,
                    timestamp := now, reader := "GithubReader" }], fsG) ∧
    gitlabProcessFile envL now dt locL ref fsL =
      Except.ok ([{ text := contentL, type := dt, name := lastSegment ref.path,
                    link := gitlabLink locL.project_id locL.branch ref.path, path := ref.path,
                    timestamp := now, reader := "GitLabReader" }], fsL) := by
  have hrt := pyB64_roundtrip x hx
  have hgc : GithubReader.download_file_content fp content_field x = pyB64encode x := by
    simp [GithubReader.download_file_content, hfp]
  have hlc : GitLabReader.download_file_content fp x = pyB64encode x := by
    simp [GitLabReader.download_file_content, hfp]
  refine ⟨hrt, hgc, by rw [hgc]; exact hrt, hlc, by rw [hlc]; exact hrt, ?_, ?_⟩
  · simp [githubProcessFile, hdl, h1, h2, h3]
  · simp [gitlabProcessFile, hdlL, h4, h5, gitlabLink]

/-- Witness for `c7_content_preservation` at concrete bytes and a concrete
plain-text file. -/
theorem c7_content_preservation_witness :
    pyB64decode (pyB64encode [77, 97, 110]) = [77, 97, 110] ∧
    GithubReader.download_file_content "a.pdf" [] [77, 97, 110] =
      pyB64encode [77, 97, 110] ∧
    pyB64decode (GithubReader.download_file_content "a.pdf" [] [77, 97, 110]) =
      [77, 97, 110] ∧
    GitLabReader.download_file_content "a.pdf" [77, 97, 110] = pyB64encode [77, 97, 110] ∧
    pyB64decode (GitLabReader.download_file_content "a.pdf" [77, 97, 110]) =
      [77, 97, 110] ∧
    githubProcessFile
      ⟨fun _ => Except.ok ["a.md"], fun _ _ => Except.ok ("hello", "L", "a.md"),
       fun _ _ _ => Except.error (), fun _ => Except.error (), fun _ => Except.error (),
       fun _ => Except.error (), fun _ => Except.error ()⟩
      "t" "Documentation" ⟨"o", "r", "main", ""⟩ "a.md" [] =
      Except.ok ([{ text := "hello", type := "Documentation", name := "a.md", link := "L",
                    path := "a.md", timestamp := "t", reader := "GithubReader" }], []) ∧
    gitlabProcessFile
      ⟨fun _ _ _ => Except.ok [], fun _ _ _ => Except.ok "hello",
       fun _ _ _ => Except.error (), fun _ => Except.error (), fun _ => Except.error (),
       fun _ => Except.error (), fun _ => Except.error ()⟩
      "t" "Documentation" ⟨"p", "main", ""⟩ ⟨"d/a.md", "p", "main"⟩ [] =
      Except.ok ([{ text := "hello", type := "Documentation", name := lastSegment "d/a.md",
                    link := gitlabLink "p" "main" "d/a.md", path := "d/a.md",
                    timestamp := "t", reader := "GitLabReader" }], []) :=
  c7_content_preservation [77, 97, 110] (by decide) "a.pdf" [] (by decide)
    ⟨fun _ => Except.ok ["a.md"], fun _ _ => Except.ok ("hello", "L", "a.md"),
     fun _ _ _ => Except.error (), fun _ => Except.error (), fun _ => Except.error (),
     fun _ => Except.error (), fun _ => Except.error ()⟩
    ⟨fun _ _ _ => Except.ok [], fun _ _ _ => Except.ok "hello",
     fun _ _ _ => Except.error (), fun _ => Except.error (), fun _ => Except.error (),
     fun _ => Except.error (), fun _ => Except.error ()⟩
    "t" "Documentation" ⟨"o", "r", "main", ""⟩ ⟨"p", "main", ""⟩
    "a.md" "hello" "L" "a.md" ⟨"d/a.md", "p", "main"⟩ "hello" [] []
    rfl (by decide) (by decide) (by decide) rfl (by decide) (by decide)

/-- C8: the file path inserted into the content-fetch URL is percent-encoded
with `safe=""`: encoding distributes over the slash-separated segments (each
segment is encoded independently, with the separators themselves encoded),
and every byte outside the unreserved set — all URL-reserved bytes and every
non-ASCII (unicode) utf-8 byte — is replaced by `%` and two hex digits. -/
theorem c8_percent_encoding (segs : List (List Nat)) (b : Nat)
    (hb : isUnreservedByte b = false) :
    GithubReader.encoded_file_path (joinSep [47] segs) =
      joinSep (urllibQuote [47]) (segs.map urllibQuote) ∧
    GitLabReader.encoded_file_path (joinSep [47] segs) =
      joinSep (urllibQuote [47]) (segs.map urllibQuote) ∧
    quoteByte b = [37, hexDigitUpper (b / 16), hexDigitUpper (b % 16)] ∧
    urllibQuote [47] = [37, 50, 70] := by
  refine ⟨urllibQuote_joinSep [47] segs, urllibQuote_joinSep [47] segs, ?_, by decide⟩
  simp [quoteByte, hb]

/-- Witness for `c8_percent_encoding`: the two-segment path `"d?/a b"` (as
utf-8 bytes) and the reserved byte `"?"` (63). -/
theorem c8_percent_encoding_witness :
    GithubReader.encoded_file_path (joinSep [47] [[100, 63], [97, 32, 98]]) =
      joinSep (urllibQuote [47]) ([[100, 63], [97, 32, 98]].map urllibQuote) ∧
    GitLabReader.encoded_file_path (joinSep [47] [[100, 63], [97, 32, 98]]) =
      joinSep (urllibQuote [47]) ([[100, 63], [97, 32, 98]].map urllibQuote) ∧
    quoteByte 63 = [37, hexDigitUpper (63 / 16), hexDigitUpper (63 % 16)] ∧
    urllibQuote [47] = [37, 50, 70] :=
  c8_percent_encoding [[100, 63], [97, 32, 98]] 63 (by decide)

/-- C9: the adapters disagree on the plain-text document's display name —
the GitHub record's `name` is the full repository path of the file, the
GitLab record's `name` is only the last slash-separated segment. -/
theorem c9_display_name_asymmetry (env : GithubEnv) (envL : GitLabEnv) (now dt : String)
    (loc : GithubLocation) (locL : GitLabLocation)
    (f content link rpath : String) (ref : GitLabFileRef) (contentL : String)
    (fsG fsL : List String)
    (hdl : env.download loc f = Except.ok (content, link, rpath))
    (h1 : pyEndswith (lastSegment f) ".pdf" = false)
    (h2 : pyEndswith (lastSegment f) ".epub" = false)
    (h3 : pyEndswith (lastSegment f) ".json" = false)
    (hdlL : envL.download locL.project_id locL.branch ref.path = Except.ok contentL)
    (h4 : pyEndswith ref.path ".pdf" = false)
    (h5 : pyEndswith ref.path ".json" = false) :
    (∃ d : Document, githubProcessFile env now dt loc f fsG = Except.ok ([d], fsG) ∧
      d.name = f) ∧
    (∃ d : Document, gitlabProcessFile envL now dt locL ref fsL = Except.ok ([d], fsL) ∧
      d.name = lastSegment ref.path) := by
  constructor
  · exact ⟨{ text := content, type := dt, name := f, link := link, path := rpath,
             timestamp := now, reader := "GithubReader" },
           by simp [githubProcessFile, hdl, h1, h2, h3], rfl⟩
  · exact ⟨{ text := contentL, type := dt, name := lastSegment ref.path,
             link := gitlabLink locL.project_id locL.branch ref.path, path := ref.path,
             timestamp := now, reader := "GitLabReader" },
           by simp [gitlabProcessFile, hdlL, h4, h5], rfl⟩

/-- Witness for `c9_display_name_asymmetry`: the nested plain-text file
`"docs/a.md"` in both adapters. -/
theorem c9_display_name_asymmetry_witness :
    (∃ d : Document, githubProcessFile
      ⟨fun _ => Except.ok ["docs/a.md"], fun _ _ => Except.ok ("hello", "L", "docs/a.md"),
       fun _ _ _ => Except.error (), fun _ => Except.error (), fun _ => Except.error (),
       fun _ => Except.error (), fun _ => Except.error ()⟩
      "t" "Documentation" ⟨"o", "r", "main", ""⟩ "docs/a.md" [] = Except.ok ([d], []) ∧
      d.name = "docs/a.md") ∧
    (∃ d : Document, gitlabProcessFile
      ⟨fun _ _ _ => Except.ok [], fun _ _ _ => Except.ok "hello",
       fun _ _ _ => Except.error (), fun _ => Except.error (), fun _ => Except.error (),
       fun _ => Except.error (), fun _ => Except.error ()⟩
      "t" "Documentation" ⟨"p", "main", ""⟩ ⟨"docs/a.md", "p", "main"⟩ [] =
      Except.ok ([d], []) ∧ d.name = lastSegment "docs/a.md") :=
  c9_display_name_asymmetry
    ⟨fun _ => Except.ok ["docs/a.md"], fun _ _ => Except.ok ("hello", "L", "docs/a.md"),
     fun _ _ _ => Except.error (), fun _ => Except.error (), fun _ => Except.error (),
     fun _ => Except.error (), fun _ => Except.error ()⟩
    ⟨fun _ _ _ => Except.ok [], fun _ _ _ => Except.ok "hello",
     fun _ _ _ => Except.error (), fun _ => Except.error (), fun _ => Except.error (),
     fun _ => Except.error (), fun _ => Except.error ()⟩
    "t" "Documentation" ⟨"o", "r", "main", ""⟩ ⟨"p", "main", ""⟩
    "docs/a.md" "hello" "L" "docs/a.md" ⟨"docs/a.md", "p", "main"⟩ "hello" [] []
    rfl (by decide) (by decide) (by decide) rfl (by decide) (by decide)

theorem githubProcessFile_fs_mono (env : GithubEnv) (now dt : String) (loc : GithubLocation)
    (f : String) (fs : List String) (docs : List Document) (fs' : List String)
    (h : githubProcessFile env now dt loc f fs = Except.ok (docs, fs')) :
    ∃ extra, fs' = fs ++ extra := by
  unfold githubProcessFile at h
  dsimp only at h
  repeat' split at h
  all_goals
    first
      | (simp only [Except.ok.injEq, Prod.mk.injEq] at h
         refine ⟨[], ?_⟩
         rw [List.append_nil]
         exact h.2.symm)
      | (simp only [Except.ok.injEq, Prod.mk.injEq] at h
         exact ⟨["temp_" ++ lastSegment f], h.2.symm⟩)
      | simp at h

theorem gitlabProcessFile_fs_mono (env : GitLabEnv) (now dt : String) (loc : GitLabLocation)
    (ref : GitLabFileRef) (fs : List String) (docs : List Document) (fs' : List String)
    (h : gitlabProcessFile env now dt loc ref fs = Except.ok (docs, fs')) :
    ∃ extra, fs' = fs ++ extra := by
  unfold gitlabProcessFile at h
  dsimp only at h
  repeat' split at h
  all_goals
    first
      | (simp only [Except.ok.injEq, Prod.mk.injEq] at h
         refine ⟨[], ?_⟩
         rw [List.append_nil]
         exact h.2.symm)
      | (simp only [Except.ok.injEq, Prod.mk.injEq] at h
         exact ⟨["temp_" ++ lastSegment ref.path], h.2.symm⟩)
      | simp at h

theorem githubProcessFiles_fs_mono (env : GithubEnv) (now dt : String) (loc : GithubLocation) :
    ∀ (files : List String) (fs : List String) (docs : List Document) (fs' : List String),
      githubProcessFiles env now dt loc files fs = Except.ok (docs, fs') →
      ∃ extra, fs' = fs ++ extra := by
  intro files
  induction files with
  | nil =>
    intro fs docs fs' h
    rw [githubProcessFiles] at h
    simp only [Except.ok.injEq, Prod.mk.injEq] at h
    exact ⟨[], by rw [← h.2]; simp⟩
  | cons f rest ih =>
    intro fs docs fs' h
    rw [githubProcessFiles] at h
    cases h1 : githubProcessFile env now dt loc f fs with
    | error e => rw [h1] at h; exact absurd h (by simp)
    | ok pr =>
      obtain ⟨d1, fs1⟩ := pr
      rw [h1] at h
      dsimp only at h
      cases h2 : githubProcessFiles env now dt loc rest fs1 with
      | error e => rw [h2] at h; exact absurd h (by simp)
      | ok pr2 =>
        obtain ⟨d2, fs2⟩ := pr2
        rw [h2] at h
        dsimp only at h
        simp only [Except.ok.injEq, Prod.mk.injEq] at h
        obtain ⟨e1, he1⟩ := githubProcessFile_fs_mono env now dt loc f fs d1 fs1 h1
        obtain ⟨e2, he2⟩ := ih fs1 d2 fs2 h2
        exact ⟨e1 ++ e2, by rw [← h.2, he2, he1, List.append_assoc]⟩

theorem gitlabProcessFiles_fs_mono (env : GitLabEnv) (now dt : String) (loc : GitLabLocation) :
    ∀ (files : List GitLabFileRef) (fs : List String) (docs : List Document) (fs' : List String),
      gitlabProcessFiles env now dt loc files fs = Except.ok (docs, fs') →
      ∃ extra, fs' = fs ++ extra := by
  intro files
  induction files with
  | nil =>
    intro fs docs fs' h
    rw [gitlabProcessFiles] at h
    simp only [Except.ok.injEq, Prod.mk.injEq] at h
    exact ⟨[], by rw [← h.2]; simp⟩
  | cons ref rest ih =>
    intro fs docs fs' h
    rw [gitlabProcessFiles] at h
    cases h1 : gitlabProcessFile env now dt loc ref fs with
    | error e => rw [h1] at h; exact absurd h (by simp)
    | ok pr =>
      obtain ⟨d1, fs1⟩ := pr
      rw [h1] at h
      dsimp only at h
      cases h2 : gitlabProcessFiles env now dt loc rest fs1 with
      | error e => rw [h2] at h; exact absurd h (by simp)
      | ok pr2 =>
        obtain ⟨d2, fs2⟩ := pr2
        rw [h2] at h
        dsimp only at h
        simp only [Except.ok.injEq, Prod.mk.injEq] at h
        obtain ⟨e1, he1⟩ := gitlabProcessFile_fs_mono env now dt loc ref fs d1 fs1 h1
        obtain ⟨e2, he2⟩ := ih fs1 d2 fs2 h2
        exact ⟨e1 ++ e2, by rw [← h.2, he2, he1, List.append_assoc]⟩

theorem githubLoad_fs_mono (env : GithubEnv) (now dt : String) :
    ∀ (paths : List String) (fs : List String) (docs : List Document) (fs' : List String),
      GithubReader.load env now dt paths fs = Except.ok (docs, fs') →
      ∃ extra, fs' = fs ++ extra := by
  intro paths
  induction paths with
  | nil =>
    intro fs docs fs' h
    rw [GithubReader.load] at h
    simp only [Except.ok.injEq, Prod.mk.injEq] at h
    exact ⟨[], by rw [← h.2]; simp⟩
  | cons p rest ih =>
    intro fs docs fs' h
    rw [GithubReader.load] at h
    by_cases hp : p = ""
    · rw [if_pos hp] at h
      exact ih fs docs fs' h
    · rw [if_neg hp] at h
      cases hf : GithubReader.fetch_docs env.treeResp p with
      | error e => rw [hf] at h; exact absurd h (by simp)
      | ok files =>
        rw [hf] at h
        dsimp only at h
        cases hloc : GithubReader.parse_location p with
        | none => rw [hloc] at h; exact absurd h (by simp)
        | some loc =>
          rw [hloc] at h
          dsimp only at h
          cases h1 : githubProcessFiles env now dt loc files fs with
          | error e => rw [h1] at h; exact absurd h (by simp)
          | ok pr =>
            obtain ⟨d1, fs1⟩ := pr
            rw [h1] at h
            dsimp only at h
            cases h2 : GithubReader.load env now dt rest fs1 with
            | error e => rw [h2] at h; exact absurd h (by simp)
            | ok pr2 =>
              obtain ⟨d2, fs2⟩ := pr2
              rw [h2] at h
              dsimp only at h
              simp only [Except.ok.injEq, Prod.mk.injEq] at h
              obtain ⟨e1, he1⟩ := githubProcessFiles_fs_mono env now dt loc files fs d1 fs1 h1
              obtain ⟨e2, he2⟩ := ih fs1 d2 fs2 h2
              exact ⟨e1 ++ e2, by rw [← h.2, he2, he1, List.append_assoc]⟩

theorem gitlabLoad_fs_mono (env : GitLabEnv) (cfg : Bool) (fuel : Nat) (now dt : String) :
    ∀ (paths : List String) (fs : List String) (docs : List Document) (fs' : List String),
      GitLabReader.load env cfg fuel now dt paths fs = Except.ok (docs, fs') →
      ∃ extra, fs' = fs ++ extra := by
  intro paths
  induction paths with
  | nil =>
    intro fs docs fs' h
    rw [GitLabReader.load] at h
    simp only [Except.ok.injEq, Prod.mk.injEq] at h
    exact ⟨[], by rw [← h.2]; simp⟩
  | cons p rest ih =>
    intro fs docs fs' h
    rw [GitLabReader.load] at h
    cases hloc : GitLabReader._parse_path p with
    | none =>
      rw [hloc] at h
      exact ih fs docs fs' h
    | some loc =>
      rw [hloc] at h
      dsimp only at h
      cases h1 : gitlabProcessFiles env now dt loc
          (GitLabReader.fetch_docs_rec env.tree (GitLabReader.supported_file_types cfg)
            loc.project_id loc.branch fuel loc.folder_path) fs with
      | error e => rw [h1] at h; exact absurd h (by simp)
      | ok pr =>
        obtain ⟨d1, fs1⟩ := pr
        rw [h1] at h
        dsimp only at h
        cases h2 : GitLabReader.load env cfg fuel now dt rest fs1 with
        | error e => rw [h2] at h; exact absurd h (by simp)
        | ok pr2 =>
          obtain ⟨d2, fs2⟩ := pr2
          rw [h2] at h
          dsimp only at h
          simp only [Except.ok.injEq, Prod.mk.injEq] at h
          obtain ⟨e1, he1⟩ := gitlabProcessFiles_fs_mono env now dt loc _ fs d1 fs1 h1
          obtain ⟨e2, he2⟩ := ih fs1 d2 fs2 h2
          exact ⟨e1 ++ e2, by rw [← h.2, he2, he1, List.append_assoc]⟩

/-- C10: whenever the local-fallback extraction path is taken (the external
service raised and the base64 decode succeeded), the per-file step records a
write of `temp_<filename>` to the working directory, in both adapters; and
the written-file set only ever grows across a whole `load` call — no code
path removes an entry, so the temporary files are never cleaned up. -/
theorem c10_temp_file_leak
    (envG : GithubEnv) (envL : GitLabEnv) (now dt : String)
    (locG : GithubLocation) (locL : GitLabLocation) (f : String) (ref : GitLabFileRef)
    (c l p cL : String) (bts btsL : List Nat) (fsG fsL : List String)
    (cfg : Bool) (fuel : Nat)
    (hdl : envG.download locG f = Except.ok (c, l, p))
    (hpdf : pyEndswith (lastSegment f) ".pdf" = true)
    (hun : envG.unstructured_load_bytes c (lastSegment f) dt = Except.error ())
    (hdec : envG.b64decode_bytes c = Except.ok bts)
    (hdlL : envL.download locL.project_id locL.branch ref.path = Except.ok cL)
    (hpdfL : pyEndswith ref.path ".pdf" = true)
    (hunL : envL.unstructured_load_bytes cL (lastSegment ref.path) dt = Except.error ())
    (hdecL : envL.b64decode_bytes cL = Except.ok btsL) :
    (∃ docs, githubProcessFile envG now dt locG f fsG =
      Except.ok (docs, fsG ++ ["temp_" ++ lastSegment f])) ∧
    (∃ docs, gitlabProcessFile envL now dt locL ref fsL =
      Except.ok (docs, fsL ++ ["temp_" ++ lastSegment ref.path])) ∧
    (∀ paths fs0 docs fs1, GithubReader.load envG now dt paths fs0 = Except.ok (docs, fs1) →
      ∃ extra, fs1 = fs0 ++ extra) ∧
    (∀ paths fs0 docs fs1,
      GitLabReader.load envL cfg fuel now dt paths fs0 = Except.ok (docs, fs1) →
      ∃ extra, fs1 = fs0 ++ extra) := by
  refine ⟨?_, ?_, ?_, ?_⟩
  · cases hr : envG.pdf_reader_load ("temp_" ++ lastSegment f) with
    | error e =>
      exact ⟨[], by cases e; simp [githubProcessFile, hdl, hpdf, hun, hdec, hr]⟩
    | ok parsed =>
      exact ⟨parsed, by simp [githubProcessFile, hdl, hpdf, hun, hdec, hr]⟩
  · cases hr : envL.pdf_reader_load ("temp_" ++ lastSegment ref.path) with
    | error e =>
      exact ⟨[], by cases e; simp [gitlabProcessFile, hdlL, hpdfL, hunL, hdecL, hr]⟩
    | ok parsed =>
      exact ⟨parsed, by simp [gitlabProcessFile, hdlL, hpdfL, hunL, hdecL, hr]⟩
  · intro paths fs0 docs fs1 h
    exact githubLoad_fs_mono envG now dt paths fs0 docs fs1 h
  · intro paths fs0 docs fs1 h
    exact gitlabLoad_fs_mono envL cfg fuel now dt paths fs0 docs fs1 h

/-- Witness for `c10_temp_file_leak`: a `.pdf` file whose extraction-service
call fails and whose content base64-decodes. -/
theorem c10_temp_file_leak_witness :
    (∃ docs, githubProcessFile
      ⟨fun _ => Except.ok ["a.pdf"], fun _ _ => Except.ok ("QQ==", "L", "a.pdf"),
       fun _ _ _ => Except.error (), fun _ => Except.error (), fun _ => Except.error (),
       fun _ => Except.ok [65], fun _ => Except.error ()⟩
      "t" "Documentation" ⟨"o", "r", "main", ""⟩ "a.pdf" [] =
      Except.ok (docs, [] ++ ["temp_" ++ lastSegment "a.pdf"])) ∧
    (∃ docs, gitlabProcessFile
      ⟨fun _ _ _ => Except.ok [], fun _ _ _ => Except.ok "QQ==",
       fun _ _ _ => Except.error (), fun _ => Except.error (), fun _ => Except.error (),
       fun _ => Except.ok [65], fun _ => Except.error ()⟩
      "t" "Documentation" ⟨"p", "main", ""⟩ ⟨"a.pdf", "p", "main"⟩ [] =
      Except.ok (docs, [] ++ ["temp_" ++ lastSegment "a.pdf"])) ∧
    (∀ paths fs0 docs fs1, GithubReader.load
      ⟨fun _ => Except.ok ["a.pdf"], fun _ _ => Except.ok ("QQ==", "L", "a.pdf"),
       fun _ _ _ => Except.error (), fun _ => Except.error (), fun _ => Except.error (),
       fun _ => Except.ok [65], fun _ => Except.error ()⟩
      "t" "Documentation" paths fs0 = Except.ok (docs, fs1) →
      ∃ extra, fs1 = fs0 ++ extra) ∧
    (∀ paths fs0 docs fs1, GitLabReader.load
      ⟨fun _ _ _ => Except.ok [], fun _ _ _ => Except.ok "QQ==",
       fun _ _ _ => Except.error (), fun _ => Except.error (), fun _ => Except.error (),
       fun _ => Except.ok [65], fun _ => Except.error ()⟩
      false 1 "t" "Documentation" paths fs0 = Except.ok (docs, fs1) →
      ∃ extra, fs1 = fs0 ++ extra) :=
  c10_temp_file_leak
    ⟨fun _ => Except.ok ["a.pdf"], fun _ _ => Except.ok ("QQ==", "L", "a.pdf"),
     fun _ _ _ => Except.error (), fun _ => Except.error (), fun _ => Except.error (),
     fun _ => Except.ok [65], fun _ => Except.error ()⟩
    ⟨fun _ _ _ => Except.ok [], fun _ _ _ => Except.ok "QQ==",
     fun _ _ _ => Except.error (), fun _ => Except.error (), fun _ => Except.error (),
     fun _ => Except.ok [65], fun _ => Except.error ()⟩
    "t" "Documentation" ⟨"o", "r", "main", ""⟩ ⟨"p", "main", ""⟩ "a.pdf"
    ⟨"a.pdf", "p", "main"⟩ "QQ==" "L" "a.pdf" "QQ==" [65] [65] [] [] false 1
    rfl (by decide) rfl rfl rfl (by decide) rfl rfl

end Verba
